import Mathlib

/-!
Verification of the spreadsheet-agent repository's range-and-cell
abstraction layer (address algebra, adapter read/write/search/structure
operations) against its specification.

Shallow embedding conventions:
* JavaScript numbers that only ever hold integers are `Int` (or `Nat` where
  the source guarantees non-negativity); strings are `String`, manipulated
  through their `List Char` data.
* The three host adapters are embedded separately: `Excel` (host scripting
  object model, part_002), `Web` (in-memory spreadsheet component,
  part_007) and `Google` (server-side scripting API, part_009).
* Host sheet state is an explicit structure; a host mutation is either a
  state update or an emitted `HostOp` trace event, so that ordering and
  resource claims can be stated over traces.
-/

/-! ## Column-letter algebra (part_002:1420, part_007:1165, part_009:1223 —
the three copies are textually identical) -/

/-- One-letter-per-iteration loop of `columnToLetter`: JS runs
`while (temp >= 0) { letter = chr(temp % 26 + 65) + letter; temp = floor(temp / 26) - 1 }`;
the recursion mirrors it (the next `temp` is `n / 26 - 1`, and the loop
exits after the iteration in which `temp < 26`).  The first argument is
an explicit iteration bound making the recursion structural: `n` itself
dominates the loop count because the next `temp` is strictly smaller. -/
def columnToLetterGo : Nat → Nat → List Char
  | 0, n => [Char.ofNat (n % 26 + 65)]
  | fuel + 1, n =>
      if n < 26 then [Char.ofNat (n % 26 + 65)]
      else columnToLetterGo fuel (n / 26 - 1) ++ [Char.ofNat (n % 26 + 65)]

/-- `columnToLetter(columnIndex)` of the adapters (zero-based index to
bijective base-26 letters). -/
def columnToLetter (n : Nat) : String :=
  ⟨columnToLetterGo n n⟩

/-- `letterToColumn(letter)` of the adapters:
`column = column * 26 + (charCode - 64)` over the characters, minus one. -/
def letterToColumn (s : String) : Int :=
  (s.data.foldl (fun acc c => acc * 26 + (c.toNat : Int) - 64) 0) - 1

/-! ## Web adapter range parsing (part_007:1183 `parseRangeAddress`) -/

/-- Parsed `{startRow, startCol, endRow, endCol}` (zero-based) returned by
`parseRangeAddress`. Fields are `Int` because the JS arithmetic
(`parseInt(...) - 1`) can in principle go negative. -/
structure RangeInfo where
  startRow : Int
  startCol : Int
  endRow : Int
  endCol : Int
deriving DecidableEq, Repr

/-- ASCII letter, either case — what `[A-Z]` matches under the `/i` flag. -/
def isAsciiLetter (c : Char) : Bool :=
  ('A' ≤ c && c ≤ 'Z') || ('a' ≤ c && c ≤ 'z')

/-- ASCII upper-casing of a letter, as JS `toUpperCase` acts on the
`[A-Za-z]+` groups the parser feeds it. -/
def asciiUpper (c : Char) : Char :=
  if 'a' ≤ c && c ≤ 'z' then Char.ofNat (c.toNat - 32) else c

/-- JS `parseInt(str, 10)` on a nonempty all-digit string. -/
def digitsToNat (l : List Char) : Nat :=
  l.foldl (fun acc c => acc * 10 + (c.toNat - 48)) 0

/-- `parseRangeAddress` (part_007:1183): matches
`/^([A-Z]+)?(\d+)?(?::([A-Z]+)?(\d+)?)?$/i` and assembles the range.  The
regex is embedded as its (equivalent, because every group is a maximal
run) greedy-run parser: letters, then digits, then optionally a colon,
letters and digits, with nothing left over.  An empty run is an undefined
(falsy) capture group. -/
def parseRangeAddress (range : String) : Option RangeInfo :=
  let l := range.data
  let g1 := l.takeWhile isAsciiLetter
  let r1 := l.dropWhile isAsciiLetter
  let g2 := r1.takeWhile Char.isDigit
  let r2 := r1.dropWhile Char.isDigit
  let build : List Char → List Char → List Char → List Char → RangeInfo :=
    fun sc sr ec er =>
      let startCol : Int := if sc.isEmpty then 0 else letterToColumn ⟨sc.map asciiUpper⟩
      let startRow : Int := if sr.isEmpty then 0 else (digitsToNat sr : Int) - 1
      let endCol : Int :=
        if ec.isEmpty then (if sc.isEmpty then 25 else startCol)
        else letterToColumn ⟨ec.map asciiUpper⟩
      let endRow : Int :=
        if er.isEmpty then (if sr.isEmpty then 999 else startRow)
        else (digitsToNat er : Int) - 1
      ⟨startRow, startCol, endRow, endCol⟩
  match r2 with
  | [] => some (build g1 g2 [] [])
  | ':' :: rest =>
      let g3 := rest.takeWhile isAsciiLetter
      let r3 := rest.dropWhile isAsciiLetter
      let g4 := r3.takeWhile Char.isDigit
      let r4 := r3.dropWhile Char.isDigit
      if r4.isEmpty then some (build g1 g2 g3 g4) else none
  | _ => none

/-! ## Tool-layer range validator (part_002:1447 `isValidCellRange`) -/

/-- `[A-Z]+` (no `/i` flag — `isValidCellRange`'s regexes are
case-sensitive). -/
def isUpperRun (l : List Char) : Bool :=
  !l.isEmpty && l.all (fun c => 'A' ≤ c && c ≤ 'Z')

/-- `\d+`. -/
def isDigitRun (l : List Char) : Bool :=
  !l.isEmpty && l.all Char.isDigit

/-- `[A-Z]+\d+` — a single cell reference. -/
def isCellRef (l : List Char) : Bool :=
  isUpperRun (l.takeWhile (fun c => 'A' ≤ c && c ≤ 'Z')) &&
    isDigitRun (l.dropWhile (fun c => 'A' ≤ c && c ≤ 'Z'))

/-- `isValidCellRange` (part_002:1447): strips whitespace
(`input.replace(/\s/g, "")`), then tests the six anchored regexes
(cell / cell:cell, col:col, row:row, cell:col, col:row, row:cell). -/
def isValidCellRange (input : String) : Bool :=
  if input.isEmpty then false
  else
    let n := input.data.filter (fun c => !c.isWhitespace)
    match n.splitOn ':' with
    | [p] => isCellRef p
    | [p, q] =>
        (isCellRef p && isCellRef q) ||
        (isUpperRun p && isUpperRun q) ||
        (isDigitRun p && isDigitRun q) ||
        (isCellRef p && isUpperRun q) ||
        (isUpperRun p && isDigitRun q) ||
        (isDigitRun p && isCellRef q)
    | _ => false

/-! ## Round-trip lemmas for the column algebra -/

/-- `Char.ofNat` then `toNat` is the identity on the small codes the
adapters produce. -/
theorem char_toNat_ofNat (m : Nat) (h : m < 1000) : (Char.ofNat m).toNat = m := by
  unfold Char.ofNat
  split
  · simp [Char.toNat, Char.ofNatAux, UInt32.toNat]
  · rename_i hv
    exact absurd (Or.inl (by omega)) hv

/-- The foldl of `letterToColumn` before the final `- 1`. -/
def letterFold (l : List Char) : Int :=
  l.foldl (fun acc c => acc * 26 + (c.toNat : Int) - 64) 0

theorem letterFold_append (l : List Char) (c : Char) :
    letterFold (l ++ [c]) = letterFold l * 26 + (c.toNat : Int) - 64 := by
  simp [letterFold, List.foldl_append]

theorem letterFold_columnToLetterGo (fuel n : Nat) (hf : n ≤ fuel) :
    letterFold (columnToLetterGo fuel n) = (n : Int) + 1 := by
  induction fuel generalizing n with
  | zero =>
      have hn : n = 0 := by omega
      subst hn
      decide
  | succ fuel ih =>
      rw [columnToLetterGo]
      split
      · rename_i h
        have hm : n % 26 = n := Nat.mod_eq_of_lt h
        simp only [letterFold, List.foldl_cons, List.foldl_nil]
        rw [char_toNat_ofNat _ (by omega)]
        push_cast
        omega
      · rename_i h
        have h26 : n / 26 < n := Nat.div_lt_self (by omega) (by omega)
        rw [letterFold_append, ih (n / 26 - 1) (by omega)]
        rw [char_toNat_ofNat _ (by have := Nat.mod_lt n (y := 26) (by omega); omega)]
        have hdm := Nat.div_add_mod n 26
        have h1 : 1 ≤ n / 26 := (Nat.one_le_div_iff (by omega)).mpr (by omega)
        push_cast
        omega

/-- C1: for every zero-based column index `n`, the adapters' shared helper
pair round-trips: `letterToColumn (columnToLetter n) = n` (bijective
base-26, A=0, Z=25, AA=26); in particular it holds on all of [0, 10000].
The single embedding covers all three adapters, whose copies of the two
helpers are textually identical. -/
theorem c1_column_letter_roundtrip (n : Nat) :
    letterToColumn (columnToLetter n) = (n : Int) := by
  show letterFold (columnToLetterGo n n) - 1 = (n : Int)
  rw [letterFold_columnToLetterGo n n le_rfl]
  omega

/-- C2 counterexample: `parseRangeAddress` does not fail on `""` or
`"A1:"` (every regex group is optional, so both match), and it does not
strip whitespace before matching (`" A1"` fails to parse instead of being
normalised) — three of the claim's required behaviours are false. -/
theorem c2_parseRange_counterexample :
    (parseRangeAddress "").isSome = true ∧
    (parseRangeAddress "A1:").isSome = true ∧
    parseRangeAddress " A1" = none := by
  decide

/-- C2 amended: `parseRangeAddress` accepts the six grammars with the
expected zero-based bounds (open-ended forms defaulting to row 999 /
column 25) and is case-insensitive on column letters, and it rejects
`"1A"`; but it parses `""` (as the full default region A1:Z1000) and
`"A1:"` (as A1), and whitespace is not stripped (a padded input fails to
parse).  The tool-layer validator `isValidCellRange` is the function that
strips whitespace; it rejects `""`, `"1A"` and `"A1:"`, but it is
case-sensitive and also accepts the undocumented row-to-cell form. -/
theorem c2_parseRange_amended :
    parseRangeAddress "A1" = some ⟨0, 0, 0, 0⟩ ∧
    parseRangeAddress "A1:C10" = some ⟨0, 0, 9, 2⟩ ∧
    parseRangeAddress "A:C" = some ⟨0, 0, 999, 2⟩ ∧
    parseRangeAddress "5:10" = some ⟨4, 0, 9, 25⟩ ∧
    parseRangeAddress "A1:B" = some ⟨0, 0, 0, 1⟩ ∧
    parseRangeAddress "A:1" = some ⟨0, 0, 0, 0⟩ ∧
    parseRangeAddress "a1:c10" = parseRangeAddress "A1:C10" ∧
    parseRangeAddress "1A" = none ∧
    parseRangeAddress "" = some ⟨0, 0, 999, 25⟩ ∧
    parseRangeAddress "A1:" = some ⟨0, 0, 0, 0⟩ ∧
    parseRangeAddress " A1" = none ∧
    isValidCellRange " A1 " = true ∧
    isValidCellRange "a1" = false ∧
    isValidCellRange "" = false ∧
    isValidCellRange "1A" = false ∧
    isValidCellRange "A1:" = false ∧
    isValidCellRange "1:A1" = true := by
  decide

/-! ## Shared write-side model types (tool `setCellRange` input shapes) -/

/-- JS truthiness of an optional string field (`undefined` and `""` are
falsy). -/
def truthyS : Option String → Bool
  | some s => !s.isEmpty
  | none => false

/-- JS truthiness of an optional number field (`undefined` and `0` are
falsy). -/
def truthyN : Option Nat → Bool
  | some n => n ≠ 0
  | none => false

/-- `cellStyles` write-side input (§3 StyleSet). -/
structure StyleSet where
  fontColor : Option String := none
  fontSize : Option Nat := none
  fontFamily : Option String := none
  fontWeight : Option String := none
  fontStyle : Option String := none
  fontLine : Option String := none
  backgroundColor : Option String := none
  horizontalAlignment : Option String := none
  numberFormat : Option String := none
deriving DecidableEq, Repr

/-- One border edge of `borderStyles`. -/
structure BorderEdge where
  style : Option String := none
  weight : Option String := none
  color : Option String := none
deriving DecidableEq, Repr

/-- `borderStyles` write-side input (§3 BorderSet). -/
structure BorderSet where
  top : Option BorderEdge := none
  bottom : Option BorderEdge := none
  left : Option BorderEdge := none
  right : Option BorderEdge := none
deriving DecidableEq, Repr

/-- One entry of the 2D `cells` array of `setCellRange`. -/
structure CellInput where
  value : Option String := none
  formula : Option String := none
  note : Option String := none
  cellStyles : Option StyleSet := none
  borderStyles : Option BorderSet := none
deriving DecidableEq, Repr

/-- `resizeWidth` / `resizeHeight` input. -/
structure Resize where
  type : String
  value : Option Nat := none
deriving DecidableEq, Repr

/-- The sparse per-cell style diff emitted on read (§4.2 `diffStyle`
output; JSON keys `fgColor`, `color`, `b`, `i`, `sz`, `family`,
`alignment`, `numFmt`, `u`, `strike`). -/
structure StyleDiff where
  fgColor : Option String := none
  color : Option String := none
  b : Option Bool := none
  i : Option Bool := none
  sz : Option Nat := none
  family : Option String := none
  alignment : Option String := none
  numFmt : Option String := none
  u : Option String := none
  strike : Option Bool := none
deriving DecidableEq, Repr

/-! ## Host-operation traces

Each adapter's `setCellRange` is embedded as the list of host mutation
calls it issues, so ordering claims are statements about traces. -/

/-- One host mutation call issued by a `setCellRange` body. -/
inductive HostOp where
  | valuesBatch
  | valueWrite (r c : Nat)
  | formulaWrite (r c : Nat)
  | styleWrite (r c : Nat)
  | borderWrite (r c : Nat)
  | noteWrite (r c : Nat)
  | copyWrite
  | resizeOp
deriving DecidableEq, Repr

/-- Write phase of a host operation: values, then formulas, then
styles/borders/notes, then copy, then resize (§5 ordering guarantee). -/
def phaseRank : HostOp → Nat
  | .valuesBatch => 0
  | .valueWrite _ _ => 0
  | .formulaWrite _ _ => 1
  | .styleWrite _ _ => 2
  | .borderWrite _ _ => 2
  | .noteWrite _ _ => 2
  | .copyWrite => 3
  | .resizeOp => 4

/-- The §5 ordering guarantee as a trace property. -/
def PhaseOrdered (tr : List HostOp) : Prop :=
  tr.Pairwise (fun a b => phaseRank a ≤ phaseRank b)

instance (tr : List HostOp) : Decidable (PhaseOrdered tr) := by
  unfold PhaseOrdered; infer_instance

/-! ## Web adapter style model (part_007: write loop 218-284, read
diff 98-144, `parseFontString` 1210) -/

/-- SpreadJS cell style object: only the fields the adapter touches. -/
structure WebStyle where
  backColor : Option String := none
  foreColor : Option String := none
  font : Option String := none
  textDecoration : Option Nat := none
  hAlign : Option Nat := none
  formatter : Option String := none
deriving DecidableEq, Repr

/-- ASCII lower-casing, as JS `toLowerCase` acts on the ASCII font
strings the adapter builds. -/
def asciiLower (c : Char) : Char :=
  if 'A' ≤ c && c ≤ 'Z' then Char.ofNat (c.toNat + 32) else c

/-- Leading-digits value of JS `parseFloat` on the integer-valued
`"<n>pt"` tokens the adapter itself writes; `none` when the token has no
leading digits (JS `NaN`, which is falsy downstream). -/
def parseFloatNat (l : List Char) : Option Nat :=
  let ds := l.takeWhile Char.isDigit
  if ds.isEmpty then none else some (digitsToNat ds)

/-- Result record of `parseFontString`. -/
structure FontParts where
  bold : Bool := false
  italic : Bool := false
  size : Option Nat := none
  family : Option String := none
deriving DecidableEq, Repr

/-- Family group of `parseFontString`'s regex
`/(\d+pt\s+)?(.+)$/i` applied to the original font string: matching at
position 0, the optional group consumes a leading `digits ++ "pt" ++
whitespace` prefix only when something nonempty follows it; otherwise the
greedy `(.+)` captures the whole string. -/
def fontFamilyOf (l : List Char) : List Char :=
  let ds := l.takeWhile Char.isDigit
  let rest := l.dropWhile Char.isDigit
  let trim : List Char → List Char := fun x =>
    ((x.dropWhile Char.isWhitespace).reverse.dropWhile Char.isWhitespace).reverse
  match rest with
  | p :: t :: rest2 =>
      if !ds.isEmpty && asciiLower p == 'p' && asciiLower t == 't' then
        let ws := rest2.takeWhile Char.isWhitespace
        let rem := rest2.dropWhile Char.isWhitespace
        if !ws.isEmpty && !rem.isEmpty then trim rem else trim l
      else trim l
  | _ => trim l

/-- `parseFontString` (part_007:1210): lower-cases and splits the font on
spaces, scanning for `bold` / `italic` / a trailing-`pt` size token; the
family comes from the regex over the original string. -/
def parseFontString (font : String) : FontParts :=
  if font.isEmpty then {}
  else
    let parts := (font.data.map asciiLower).splitOn ' '
    let scanned := parts.foldl
      (fun (acc : FontParts) part =>
        if part == ['b', 'o', 'l', 'd'] then { acc with bold := true }
        else if part == ['i', 't', 'a', 'l', 'i', 'c'] then { acc with italic := true }
        else if ['p', 't'].isSuffixOf part then { acc with size := parseFloatNat part }
        else acc)
      {}
    let fam := fontFamilyOf font.data
    if fam.isEmpty then scanned else { scanned with family := some ⟨fam⟩ }

/-- The style-write branch of the web `setCellRange` per-cell loop
(part_007:218-284): starts from the cell's current style (or a fresh
`Style`), then sets colors, a rebuilt font string (`bold? italic? <size>pt
<family>`, defaults 11pt Calibri, only when one of the four font fields
was supplied), text decoration, alignment and formatter. -/
def applyWebStyles (cs : StyleSet) (current : Option WebStyle) : WebStyle :=
  let s0 := current.getD {}
  let s1 := if truthyS cs.fontColor then { s0 with foreColor := cs.fontColor } else s0
  let s2 := if truthyS cs.backgroundColor then { s1 with backColor := cs.backgroundColor } else s1
  let fontSize := if truthyN cs.fontSize then cs.fontSize.getD 11 else 11
  let fontFamily := if truthyS cs.fontFamily then cs.fontFamily.getD "Calibri" else "Calibri"
  let fontStr :=
    (if cs.fontWeight == some "bold" then "bold " else "") ++
    (if cs.fontStyle == some "italic" then "italic " else "") ++
    toString fontSize ++ "pt " ++ fontFamily
  let s3 :=
    if cs.fontWeight.isSome || cs.fontStyle.isSome ||
        cs.fontSize.isSome || cs.fontFamily.isSome then
      { s2 with font := some fontStr }
    else s2
  let s4 :=
    match cs.fontLine with
    | some line =>
        let deco : Nat := if line = "underline" then 1 else if line = "line-through" then 2 else 0
        { s3 with textDecoration := some deco }
    | none => s3
  let s5 :=
    match cs.horizontalAlignment with
    | some al =>
        let h : Nat := if al = "left" then 0 else if al = "center" then 1
          else if al = "right" then 2 else 3
        { s4 with hAlign := some h }
    | none => s4
  match cs.numberFormat with
  | some fmt => if fmt.isEmpty then s5 else { s5 with formatter := some fmt }
  | none => s5

/-- The style-diff branch of the web `getCellRanges` read loop
(part_007:98-144): suppresses the host defaults (`#ffffff` background,
`#000000` foreground, size 11, family Calibri, general alignment 3) and
decodes the decoration bit mask. -/
def webStyleDiff (style : WebStyle) : StyleDiff :=
  let d0 : StyleDiff := {}
  let d1 := if truthyS style.backColor && style.backColor ≠ some "#ffffff" then
      { d0 with fgColor := style.backColor } else d0
  let d2 := if truthyS style.foreColor && style.foreColor ≠ some "#000000" then
      { d1 with color := style.foreColor } else d1
  let d3 :=
    match style.font with
    | some f =>
        if f.isEmpty then d2
        else
          let fp := parseFontString f
          let e1 := if fp.bold then { d2 with b := some true } else d2
          let e2 := if fp.italic then { e1 with i := some true } else e1
          let e3 := if truthyN fp.size && fp.size ≠ some 11 then
              { e2 with sz := fp.size } else e2
          if truthyS fp.family && fp.family ≠ some "Calibri" then
            { e3 with family := fp.family } else e3
    | none => d2
  let d4 :=
    match style.hAlign with
    | some h =>
        if h ≠ 3 then
          let al : String := if h = 0 then "left" else if h = 1 then "center"
            else if h = 2 then "right" else "general"
          { d3 with alignment := some al }
        else d3
    | none => d3
  let d5 := if truthyS style.formatter then { d4 with numFmt := style.formatter } else d4
  match style.textDecoration with
  | some td =>
      if td ≠ 0 then
        let e1 := if td % 2 = 1 then { d5 with u := some "single" } else d5
        if td / 2 % 2 = 1 then { e1 with strike := some true } else e1
      else d5
  | none => d5

/-! ## Web adapter sheet state and `setCellRange` (part_007:170-404) -/

/-- Pointwise update of a two-index map. -/
def upd2 {α : Type} (f : Nat → Nat → α) (r c : Nat) (v : α) : Nat → Nat → α :=
  fun r' c' => if r' = r ∧ c' = c then v else f r' c'

/-- SpreadJS worksheet state: the cell stores the adapter reads/writes
(values, formulas, comments, styles), the used-range rectangle
`(row, col, rowCount, colCount)`, and the frozen pane counts.  Border
state is not modelled (nothing in the adapter reads it back); border
writes appear only as trace events. -/
structure WebSheet where
  val : Nat → Nat → Option String
  formula : Nat → Nat → Option String
  comment : Nat → Nat → Option String
  style : Nat → Nat → Option WebStyle
  used : Option (Nat × Nat × Nat × Nat) := none
  frozenRows : Nat := 0
  frozenCols : Nat := 0

/-- A sheet with no content. -/
def emptyWebSheet : WebSheet :=
  { val := fun _ _ => none, formula := fun _ _ => none,
    comment := fun _ _ => none, style := fun _ _ => none }

/-- Paint/calculation suspension events of the in-memory adapter. -/
inductive ResEvent where
  | suspendPaint
  | resumePaint
  | suspendCalc
  | resumeCalc
deriving DecidableEq, Repr

/-- The full `setCellRange` tool input. -/
structure SetInput where
  range : String
  cells : List (List CellInput)
  copyToRange : Option String := none
  resizeWidth : Option Resize := none
  resizeHeight : Option Resize := none

/-- Row-major indexing of the 2D `cells` array (the `for r` / `for c`
loops). -/
def cellsIndexed (cells : List (List CellInput)) : List (Nat × Nat × CellInput) :=
  cells.enum.flatMap (fun rc => rc.2.enum.map (fun cc => (rc.1, cc.1, cc.2)))

/-- `A`-`Z`. -/
def isUpperAZ (c : Char) : Bool := 'A' ≤ c && c ≤ 'Z'

/-- Modelled from the spec: the host copy primitives' relative-reference
translation (§4.4: the single-cell and whole-range copy primitives
"still perform reference translation", e.g. `=B2` copied down one row
becomes `=B3`).  The primitive itself lives in each host, not in this
repository; the model shifts every `LETTERS DIGITS` token of the formula
by the copy delta (the claims only exercise lock-free relative
references). -/
def translateRef (dr dc : Int) (letters digits : List Char) : List Char :=
  let col := letterToColumn ⟨letters⟩ + dc
  let row := (digitsToNat digits : Int) + dr
  (columnToLetter col.toNat).data ++ (toString row.toNat).data

/-- Character scan of `translateFormula`: copies non-reference characters
and shifts each maximal `LETTERS DIGITS` token.  The first argument is an
explicit bound (the remaining length) making the recursion structural;
every step consumes at least one character. -/
def translateGo (dr dc : Int) : Nat → List Char → List Char
  | 0, l => l
  | fuel + 1, l =>
      match l with
      | [] => []
      | c :: rest =>
          if isUpperAZ c then
            let letters := c :: rest.takeWhile isUpperAZ
            let r1 := rest.dropWhile isUpperAZ
            let digits := r1.takeWhile Char.isDigit
            let r2 := r1.dropWhile Char.isDigit
            if digits.isEmpty then c :: translateGo dr dc fuel rest
            else translateRef dr dc letters digits ++ translateGo dr dc fuel r2
          else c :: translateGo dr dc fuel rest

/-- Modelled from the spec: reference translation of a whole formula by a
host copy primitive (see `translateRef`). -/
def translateFormula (dr dc : Int) (f : String) : String :=
  ⟨translateGo dr dc f.data.length f.data⟩

/-- The per-cell write loop of the web `setCellRange`
(part_007:191-291): for each supplied cell, in order — formula or value,
then note, then style, then borders — mutating the sheet directly and
emitting one trace event per host call.  `failAt` selects a cell whose
first host call throws (the mid-batch host-error path); the partial
state and trace up to the throw are returned with the error. -/
def webWriteCells (failAt : Nat → Nat → Bool) (sr sc : Nat) :
    List (Nat × Nat × CellInput) → WebSheet → List HostOp →
    WebSheet × List HostOp × Option String
  | [], s, tr => (s, tr, none)
  | (r, c, cell) :: rest, s, tr =>
      let tR := sr + r
      let tC := sc + c
      let acts := truthyS cell.formula || cell.value.isSome || truthyS cell.note ||
        cell.cellStyles.isSome || cell.borderStyles.isSome
      if failAt tR tC && acts then (s, tr, some "host write failed")
      else
        let (s1, tr1) :=
          if truthyS cell.formula then
            ({ s with formula := upd2 s.formula tR tC cell.formula },
              tr ++ [HostOp.formulaWrite tR tC])
          else
            match cell.value with
            | some v => ({ s with val := upd2 s.val tR tC (some v) },
                tr ++ [HostOp.valueWrite tR tC])
            | none => (s, tr)
        let (s2, tr2) :=
          if truthyS cell.note then
            ({ s1 with comment := upd2 s1.comment tR tC cell.note },
              tr1 ++ [HostOp.noteWrite tR tC])
          else (s1, tr1)
        let (s3, tr3) :=
          match cell.cellStyles with
          | some cs =>
              ({ s2 with style := upd2 s2.style tR tC (some (applyWebStyles cs (s2.style tR tC))) },
                tr2 ++ [HostOp.styleWrite tR tC])
          | none => (s2, tr2)
        let tr4 := if cell.borderStyles.isSome then tr3 ++ [HostOp.borderWrite tR tC] else tr3
        webWriteCells failAt sr sc rest s3 tr4

/-- The `copyToRange` pattern-expansion loop of the web `setCellRange`
(part_007:316-359): fills the destination grid by repeating
`source[r % srcRows, c % srcCols]`; a formula source cell goes through
the host's single-cell copy primitive (reference translation), a value
cell is copied directly together with its style. -/
def webCopyCells (sr sc srcRows srcCols dsr dsc : Nat) :
    List (Nat × Nat) → WebSheet → List HostOp → WebSheet × List HostOp
  | [], s, tr => (s, tr)
  | (r, c) :: rest, s, tr =>
      let srcRow := sr + r % srcRows
      let srcCol := sc + c % srcCols
      let dstRow := dsr + r
      let dstCol := dsc + c
      if srcRow = dstRow ∧ srcCol = dstCol then
        webCopyCells sr sc srcRows srcCols dsr dsc rest s tr
      else
        let s' :=
          if truthyS (s.formula srcRow srcCol) then
            { s with
              val := upd2 s.val dstRow dstCol (s.val srcRow srcCol),
              formula := upd2 s.formula dstRow dstCol
                (some (translateFormula ((dstRow : Int) - srcRow) ((dstCol : Int) - srcCol)
                  ((s.formula srcRow srcCol).getD ""))),
              style := upd2 s.style dstRow dstCol (s.style srcRow srcCol) }
          else
            let s1 := { s with val := upd2 s.val dstRow dstCol (s.val srcRow srcCol) }
            match s.style srcRow srcCol with
            | some st => { s1 with style := upd2 s1.style dstRow dstCol (some st) }
            | none => s1
        webCopyCells sr sc srcRows srcCols dsr dsc rest s' (tr ++ [HostOp.copyWrite])

/-- Result of the web `setCellRange` model: the operation outcome with
its `formula_results`, the final sheet, the host-mutation trace and the
paint/calc suspension event trace. -/
structure WebSetResult where
  result : Except String (List (String × String))
  sheet : WebSheet
  trace : List HostOp
  rtrace : List ResEvent

/-- Web adapter `setCellRange` (part_007:170-404).  Mirrors the source:
parse the range (throwing before any suspension on failure);
`suspendPaint` and `suspendCalcService`; run the per-cell write loop
(a host throw propagates through the `finally`, which resumes paint
only — `resumeCalcService(true)` sits inside the `try` body);
on success resume the calc service, collect formula results, run the
`copyToRange` pattern expansion and the resize loops, and resume paint. -/
def webSetCellRange (failAt : Nat → Nat → Bool) (input : SetInput) (s0 : WebSheet) :
    WebSetResult :=
  match parseRangeAddress input.range with
  | none =>
      { result := .error ("Invalid range: " ++ input.range), sheet := s0,
        trace := [], rtrace := [] }
  | some ri =>
      let sr := ri.startRow.toNat
      let sc := ri.startCol.toNat
      let (s1, tr1, err) := webWriteCells failAt sr sc (cellsIndexed input.cells) s0 []
      match err with
      | some e =>
          { result := .error e, sheet := s1, trace := tr1,
            rtrace := [.suspendPaint, .suspendCalc, .resumePaint] }
      | none =>
          let formulaResults := (cellsIndexed input.cells).filterMap (fun rcc =>
            let (r, c, cell) := rcc
            if truthyS cell.formula then
              match s1.val (sr + r) (sc + c) with
              | some v => some (columnToLetter (sc + c) ++ toString (sr + r + 1), v)
              | none => none
            else none)
          let (s2, tr2) :=
            match input.copyToRange with
            | some dstStr =>
                match parseRangeAddress dstStr with
                | some di =>
                    let srcRows := (ri.endRow - ri.startRow + 1).toNat
                    let srcCols := (ri.endCol - ri.startCol + 1).toNat
                    let dstRows := (di.endRow - di.startRow + 1).toNat
                    let dstCols := (di.endCol - di.startCol + 1).toNat
                    webCopyCells sr sc srcRows srcCols di.startRow.toNat di.startCol.toNat
                      ((List.range dstRows).flatMap (fun r =>
                        (List.range dstCols).map (fun c => (r, c)))) s1 tr1
                | none => (s1, tr1)
            | none => (s1, tr1)
          let tr3 := tr2 ++
            (match input.resizeWidth with
              | some _ => (List.range ((ri.endCol - ri.startCol + 1).toNat)).map
                  (fun _ => HostOp.resizeOp)
              | none => []) ++
            (match input.resizeHeight with
              | some _ => (List.range ((ri.endRow - ri.startRow + 1).toNat)).map
                  (fun _ => HostOp.resizeOp)
              | none => [])
          { result := .ok formulaResults, sheet := s2, trace := tr3,
            rtrace := [.suspendPaint, .suspendCalc, .resumeCalc, .resumePaint] }

/-! ## Read-side output model and web `getCellRanges` (part_007:33-168) -/

/-- §4.2 `encodeCellForRead`: bare value, `[value, formula]`, or
`[value, formula, note]` (the formula slot may hold JS `null`). -/
inductive CellOut where
  | plain (v : String)
  | withFormula (v : Option String) (f : String)
  | withNote (v : Option String) (f : Option String) (n : String)
deriving DecidableEq, Repr

/-- Result of a `getCellRanges` call: the sparse cell map (in emission
order), the style-diff map (absent when empty or styles not requested),
the `hasMore` flag and the `nextRanges` field (absent unless `hasMore`
and nonempty).  The `name`/`sheetId`/`dimension` metadata of the JSON
result is not claim-relevant and is omitted. -/
structure ReadResult where
  cells : List (String × CellOut)
  styles : Option (List (String × StyleDiff))
  hasMore : Bool
  nextRanges : Option (List String)
deriving DecidableEq, Repr

/-- Accumulator of the `getCellRanges` loops. -/
structure ReadAcc where
  cells : List (String × CellOut) := []
  styles : List (String × StyleDiff) := []
  count : Nat := 0
  hasMore : Bool := false
  nextRanges : List String := []

/-- A1 address of a zero-based cell. -/
def a1Addr (col row : Nat) : String :=
  columnToLetter col ++ toString (row + 1)

/-- One cell of the web read loop (part_007:78-146): emit the value /
formula / comment encoding, then the style diff when requested, then
count the cell (the web adapter counts every visited cell, empty or
not). -/
def webReadCell (s : WebSheet) (includeStyles : Bool) (row col : Nat)
    (acc : ReadAcc) : ReadAcc :=
  let value := s.val row col
  let formula := s.formula row col
  let comment := s.comment row col
  let addr := a1Addr col row
  let cells :=
    if truthyS formula then
      match comment with
      | some n => acc.cells ++ [(addr, CellOut.withNote value formula n)]
      | none => acc.cells ++ [(addr, CellOut.withFormula value (formula.getD ""))]
    else
      match comment with
      | some n => acc.cells ++ [(addr, CellOut.withNote value none n)]
      | none =>
          match value with
          | some v => if v.isEmpty then acc.cells else acc.cells ++ [(addr, CellOut.plain v)]
          | none => acc.cells
  let styles :=
    if includeStyles then
      match s.style row col with
      | some st =>
          let d := webStyleDiff st
          if d = {} then acc.styles else acc.styles ++ [(addr, d)]
      | none => acc.styles
    else acc.styles
  { acc with cells := cells, styles := styles, count := acc.count + 1 }

/-- The row loop of the web read (part_007:72-148): the cell-limit check
runs only at the top of each row, so a started row is always completed;
on truncation only `hasMore` is set — the remaining rows of the current
range are not recorded. -/
def webReadRows (s : WebSheet) (includeStyles : Bool) (cols : List Nat)
    (limit : Nat) : List Nat → ReadAcc → ReadAcc
  | [], acc => acc
  | row :: rest, acc =>
      if acc.count ≥ limit then { acc with hasMore := true }
      else webReadRows s includeStyles cols limit rest
        (cols.foldl (fun a col => webReadCell s includeStyles row col a) acc)

/-- JS `for (x = lo; x <= hi; x++)` over the zero-based bounds a parsed
range yields. -/
def natSpan (lo hi : Int) : List Nat :=
  (List.range (hi - lo + 1).toNat).map (fun i => lo.toNat + i)

/-- The range loop of the web `getCellRanges` (part_007:59-149): when the
budget is already exhausted the not-yet-started ranges are pushed
verbatim; an unparsable range is skipped. -/
def webReadRanges (s : WebSheet) (includeStyles : Bool) (limit : Nat) :
    List String → ReadAcc → ReadAcc
  | [], acc => acc
  | rStr :: rest, acc =>
      if acc.count ≥ limit then
        { acc with hasMore := true, nextRanges := acc.nextRanges ++ (rStr :: rest) }
      else
        match parseRangeAddress rStr with
        | none => webReadRanges s includeStyles limit rest acc
        | some ri =>
            let acc' := webReadRows s includeStyles (natSpan ri.startCol ri.endCol) limit
              (natSpan ri.startRow ri.endRow) acc
            webReadRanges s includeStyles limit rest acc'

/-- Web adapter `getCellRanges` (part_007:33-168). -/
def webGetCellRanges (s : WebSheet) (ranges : List String)
    (includeStyles : Bool) (cellLimit : Nat) : ReadResult :=
  let acc := webReadRanges s includeStyles cellLimit ranges {}
  { cells := acc.cells,
    styles := if includeStyles && !acc.styles.isEmpty then some acc.styles else none,
    hasMore := acc.hasMore,
    nextRanges := if acc.hasMore && !acc.nextRanges.isEmpty then some acc.nextRanges else none }

/-! ## Search model (web part_007:406-499) -/

/-- `searchData` tool input. -/
structure SearchInput where
  searchTerm : String
  range : Option String := none
  matchCase : Bool := false
  matchEntireCell : Bool := false
  maxResults : Nat := 500
  offset : Nat := 0

/-- One search hit (sheet metadata omitted; `row`/`column` are
one-based as in the source). -/
structure SearchMatch where
  a1 : String
  row : Nat
  column : Nat
deriving DecidableEq, Repr

/-- `searchData` result fields the claims range over (`matchList` embeds
the JSON `matches` array — `matches` is a reserved word in Lean). -/
structure SearchResult where
  matchList : List SearchMatch
  totalFound : Nat
  returned : Nat
  offset : Nat
  hasMore : Bool
  nextOffset : Option Nat
deriving DecidableEq, Repr

/-- JS `toLowerCase` over the ASCII strings the scenarios use. -/
def lowerStr (s : String) : String := ⟨s.data.map asciiLower⟩

/-- JS `String.prototype.includes`. -/
def strIncludes (s t : String) : Bool :=
  s.data.tails.any (fun suf => t.data.isPrefixOf suf)

/-- The match test shared by the web and Google search loops:
case-folded equality or substring containment. -/
def matchesTerm (matchCase matchEntire : Bool) (term v : String) : Bool :=
  let termL := if matchCase then term else lowerStr term
  let cmp := if matchCase then v else lowerStr v
  if matchEntire then cmp == termL else strIncludes cmp termL

/-- The cell scan of the web `searchData` (part_007:454-488): row-major
over the bounds, skipping empty cells, capped at `maxResults` (the cap is
checked before each cell). -/
def webSearchLoop (s : WebSheet) (inp : SearchInput) :
    List (Nat × Nat) → List SearchMatch → List SearchMatch
  | [], acc => acc
  | (r, c) :: rest, acc =>
      if acc.length ≥ inp.maxResults then acc
      else
        match s.val r c with
        | none => webSearchLoop s inp rest acc
        | some v =>
            if matchesTerm inp.matchCase inp.matchEntireCell inp.searchTerm v then
              webSearchLoop s inp rest (acc ++ [⟨a1Addr c r, r + 1, c + 1⟩])
            else webSearchLoop s inp rest acc

/-- Web adapter `searchData` (part_007:406-499).  The input's `offset`
field is never read (the destructuring omits it); the result always
reports `offset 0`, `hasMore false`, `nextOffset null` and
`totalFound = returned = matches.length`. -/
def webSearchData (inp : SearchInput) (s : WebSheet) : SearchResult :=
  match s.used with
  | none =>
      { matchList := [], totalFound := 0, returned := 0, offset := 0,
        hasMore := false, nextOffset := none }
  | some (ur, uc, urc, ucc) =>
      let bounds :=
        match inp.range with
        | some rs =>
            match parseRangeAddress rs with
            | some ri => (ri.startRow.toNat, ri.endRow.toNat, ri.startCol.toNat, ri.endCol.toNat)
            | none => (ur, ur + urc - 1, uc, uc + ucc - 1)
        | none => (ur, ur + urc - 1, uc, uc + ucc - 1)
      let (r0, r1, c0, c1) := bounds
      let cellsList := (List.range (r1 + 1 - r0)).flatMap (fun i =>
        (List.range (c1 + 1 - c0)).map (fun j => (r0 + i, c0 + j)))
      let found := webSearchLoop s inp cellsList []
      { matchList := found, totalFound := found.length, returned := found.length,
        offset := 0, hasMore := false, nextOffset := none }

/-! ## Frozen-pane branches of `modifySheetStructure`
(Excel part_002:696-719, web part_007:542-551, Google part_009:712-730) -/

/-- The `operation` values of `modifySheetStructure`. -/
inductive SheetOp where
  | insert
  | delete
  | hide
  | unhide
  | freeze
  | unfreeze
deriving DecidableEq, Repr

/-- Frozen-pane state `(frozenRows, frozenCols)` transition of the Excel
`modifySheetStructure` switch.  `freezePanes.unfreeze()` is the host
primitive that removes all frozen panes (both dimensions); only the
freeze/unfreeze branches touch pane state. -/
def excelModifyFrozen (op : SheetOp) (dimension : Option String) (count : Nat)
    (st : Nat × Nat) : Nat × Nat :=
  match op with
  | .freeze =>
      match dimension with
      | none => st
      | some d => if d = "rows" then (count, st.2) else (st.1, count)
  | .unfreeze => (0, 0)
  | _ => st

/-- Frozen-pane transition of the web `modifySheetStructure` switch:
`unfreeze` sets `frozenRowCount(0)` and `frozenColumnCount(0)`. -/
def webModifyFrozen (op : SheetOp) (dimension : Option String) (count : Nat)
    (st : Nat × Nat) : Nat × Nat :=
  match op with
  | .freeze =>
      if dimension = some "rows" then (count, st.2)
      else if dimension = some "columns" then (st.1, count)
      else st
  | .unfreeze => (0, 0)
  | _ => st

/-- Frozen-pane transition of the Google `modifySheetStructure` switch:
`unfreeze` calls `setFrozenRows(0)` and `setFrozenColumns(0)`. -/
def googleModifyFrozen (op : SheetOp) (dimension : Option String) (count : Nat)
    (st : Nat × Nat) : Nat × Nat :=
  match op with
  | .freeze =>
      match dimension with
      | none => st
      | some d => if d = "rows" then (count, st.2) else (st.1, count)
  | .unfreeze => (0, 0)
  | _ => st

/-- C10: in every adapter, `modifySheetStructure` with operation
`unfreeze` resets both frozen rows and frozen columns to zero, for every
supplied `dimension` and `count` and from every pane state — unfreeze is
never dimension-selective. -/
theorem c10_unfreeze_clears_both (dimension : Option String) (count : Nat)
    (st : Nat × Nat) :
    excelModifyFrozen .unfreeze dimension count st = (0, 0) ∧
    webModifyFrozen .unfreeze dimension count st = (0, 0) ∧
    googleModifyFrozen .unfreeze dimension count st = (0, 0) :=
  ⟨rfl, rfl, rfl⟩

/-! ## Excel adapter (part_002) -/

/-- Host range-format state the Excel style write touches
(`range.format.font` / `fill` / alignment / number format), with the
host's default constants. -/
structure ExcelCellFormat where
  bold : Bool := false
  italic : Bool := false
  underline : Bool := false
  strikethrough : Bool := false
  size : Nat := 11
  color : String := "#000000"
  name : String := "Calibri"
  fillColor : String := "#ffffff"
  hAlign : String := "general"
  numberFormat : String := "General"
deriving DecidableEq, Repr

/-- Excel worksheet state: `values` (`""` = empty cell) and `formulas`
(the host returns the literal value for non-formula cells, hence the
adapter's `startsWith "="` test) grids plus per-cell format. -/
structure ExcelSheet where
  values : Nat → Nat → String
  formulas : Nat → Nat → String
  fmt : Nat → Nat → ExcelCellFormat

/-- The style branch of the Excel `setCellRange` per-cell loop
(part_002:394-438). -/
def applyExcelStyles (cs : StyleSet) (f : ExcelCellFormat) : ExcelCellFormat :=
  let f1 := if truthyS cs.fontColor then { f with color := cs.fontColor.getD "" } else f
  let f2 := if truthyN cs.fontSize then { f1 with size := cs.fontSize.getD 0 } else f1
  let f3 := if truthyS cs.fontFamily then { f2 with name := cs.fontFamily.getD "" } else f2
  let f4 :=
    if cs.fontWeight = some "bold" then { f3 with bold := true }
    else if cs.fontWeight = some "normal" then { f3 with bold := false }
    else f3
  let f5 :=
    if cs.fontStyle = some "italic" then { f4 with italic := true }
    else if cs.fontStyle = some "normal" then { f4 with italic := false }
    else f4
  let f6 :=
    if cs.fontLine = some "underline" then { f5 with underline := true }
    else if cs.fontLine = some "line-through" then { f5 with strikethrough := true }
    else if cs.fontLine = some "none" then { f5 with underline := false, strikethrough := false }
    else f5
  let f7 := if truthyS cs.backgroundColor then { f6 with fillColor := cs.backgroundColor.getD "" } else f6
  let f8 :=
    match cs.horizontalAlignment with
    | some al =>
        let a : String := if al = "left" then "left" else if al = "center" then "center" else "right"
        { f7 with hAlign := a }
    | none => f7
  match cs.numberFormat with
  | some fmt => if fmt.isEmpty then f8 else { f8 with numberFormat := fmt }
  | none => f8

/-- The style writes performed by the Excel `setCellRange` body on the
host sheet (the claims read format state back, so this is split from the
trace model). -/
def excelWriteStyles (sr sc : Nat) (cells : List (List CellInput)) (s : ExcelSheet) :
    ExcelSheet :=
  (cellsIndexed cells).foldl (fun sh rcc =>
    let (r, c, cell) := rcc
    match cell.cellStyles with
    | some cs =>
        { sh with fmt := upd2 sh.fmt (sr + r) (sc + c) (applyExcelStyles cs (sh.fmt (sr + r) (sc + c))) }
    | none => sh) s

/-- A single `LETTERS DIGITS` cell reference, zero-based. -/
def parseCellRef (l : List Char) : Option (Nat × Nat) :=
  let letters := l.takeWhile isUpperAZ
  let digits := (l.dropWhile isUpperAZ).takeWhile Char.isDigit
  let rest := (l.dropWhile isUpperAZ).dropWhile Char.isDigit
  if letters.isEmpty || digits.isEmpty || !rest.isEmpty then none
  else
    let row1 := digitsToNat digits
    if row1 = 0 then none
    else some (row1 - 1, (letterToColumn ⟨letters⟩).toNat)

/-- Modelled from the spec: host-native A1 range resolution
(`worksheet.getRange(address)` in the Excel host, `sheet.getRange` in the
Google host — glossary "A1 notation").  The primitive lives in the hosts,
not in this repository; it is embedded here for the `CELL` and
`CELL:CELL` grammars the claims exercise, returning the zero-based
`(startRow, startCol, rowCount, colCount)` rectangle, and failing (host
exception) otherwise. -/
def hostResolveRange (s : String) : Option (Nat × Nat × Nat × Nat) :=
  match (s.data.map asciiUpper).splitOn ':' with
  | [p] =>
      match parseCellRef p with
      | some (r, c) => some (r, c, 1, 1)
      | none => none
  | [p, q] =>
      match parseCellRef p, parseCellRef q with
      | some (r1, c1), some (r2, c2) =>
          if r1 ≤ r2 && c1 ≤ c2 then some (r1, c1, r2 - r1 + 1, c2 - c1 + 1) else none
      | _, _ => none
  | _ => none

/-- One row of the Excel read loop (part_002:119-140): the inner column
loop has no limit check, so a started row always completes; cells that
are empty with no formula are skipped, and only skipped cells do not
count toward the budget. -/
def excelReadRow (s : ExcelSheet) (sr sc cc row : Nat) (acc : ReadAcc) : ReadAcc :=
  (List.range cc).foldl (fun a col =>
    let value := s.values (sr + row) (sc + col)
    let formula := s.formulas (sr + row) (sc + col)
    if value.isEmpty && formula.isEmpty then a
    else
      let addr := a1Addr (sc + col) (sr + row)
      let entry :=
        if "=".data.isPrefixOf formula.data then CellOut.withFormula (some value) formula
        else CellOut.plain value
      { a with cells := a.cells ++ [(addr, entry)], count := a.count + 1 }) acc

/-- The row loop of one Excel range (part_002:100-117): truncation at a
row boundary records the row-sliced remainder of the current range and
then the not-yet-visited ranges, and breaks (the outer loop's own check
will append those ranges once more). -/
def excelReadRows (s : ExcelSheet) (sr sc rc cc limit : Nat) (rest : List String) :
    List Nat → ReadAcc → ReadAcc
  | [], acc => acc
  | row :: more, acc =>
      if acc.count ≥ limit then
        let slice := columnToLetter sc ++ toString (sr + row + 1) ++ ":" ++
          columnToLetter (sc + cc - 1) ++ toString (sr + rc)
        { acc with hasMore := true, nextRanges := acc.nextRanges ++ [slice] ++ rest }
      else
        excelReadRows s sr sc rc cc limit rest more (excelReadRow s sr sc cc row acc)

/-- The range loop of the Excel `getCellRanges` (part_002:60-141): `none`
models the host exception on an unresolvable range address. -/
def excelReadRanges (s : ExcelSheet) (limit : Nat) :
    List String → ReadAcc → Option ReadAcc
  | [], acc => some acc
  | rStr :: rest, acc =>
      if acc.count ≥ limit then
        some { acc with hasMore := true, nextRanges := acc.nextRanges ++ (rStr :: rest) }
      else
        match hostResolveRange rStr with
        | none => none
        | some (sr, sc, rc, cc) =>
            excelReadRanges s limit rest
              (excelReadRows s sr sc rc cc limit rest (List.range rc) acc)

/-- Excel adapter `getCellRanges` (part_002:31-160).  The source declares
a `styles` record alongside `cells` but never assigns to it, so the
result's style map is always absent (the `includeStyles` loads are dead).
-/
def excelGetCellRanges (s : ExcelSheet) (ranges : List String) (cellLimit : Nat) :
    Option ReadResult :=
  match excelReadRanges s cellLimit ranges {} with
  | none => none
  | some acc =>
      some
        { cells := acc.cells,
          styles := none,
          hasMore := acc.hasMore,
          nextRanges :=
            if acc.hasMore && !acc.nextRanges.isEmpty then some acc.nextRanges else none }

/-- "Cell array row count (a) does not match range row count (e)". -/
def rowCountMsg (actual expected : Nat) : String :=
  "Cell array row count (" ++ toString actual ++ ") does not match range row count (" ++
    toString expected ++ ")"

/-- "Cell array column count at row r (a) does not match range column
count (e)". -/
def colCountMsg (r actual expected : Nat) : String :=
  "Cell array column count at row " ++ toString r ++ " (" ++ toString actual ++
    ") does not match range column count (" ++ toString expected ++ ")"

/-- The dimension validation at the top of `setCellRange` — textually
identical in the Excel (part_002:328-341) and Google (part_009:390-403)
adapters; the web adapter has no counterpart.  Outer length first, then
the first inner row of wrong length. -/
def validateCellsDims (cells : List (List CellInput)) (rowCount colCount : Nat) :
    Option String :=
  if cells.length ≠ rowCount then some (rowCountMsg cells.length rowCount)
  else
    cells.enum.findSome? (fun rc =>
      if rc.2.length ≠ colCount then some (colCountMsg rc.1 rc.2.length colCount) else none)

/-- Host-call trace of the Excel `setCellRange` (part_002:306-585):
validation throws before any write; then one batched values assignment,
the formula loop, the per-cell style/border/note loop, the optional
`copyFrom`, and the optional resizes, in that statement order. -/
def excelSetCellRangeTrace (cells : List (List CellInput)) (copyToRange : Option String)
    (rw rh : Option Resize) (rowCount colCount : Nat) : Except String (List HostOp) :=
  match validateCellsDims cells rowCount colCount with
  | some m => .error m
  | none =>
      let fOps := (cellsIndexed cells).filterMap (fun rcc =>
        if truthyS rcc.2.2.formula then some (HostOp.formulaWrite rcc.1 rcc.2.1) else none)
      let sOps := (cellsIndexed cells).flatMap (fun rcc =>
        let (r, c, cell) := rcc
        (if cell.cellStyles.isSome then [HostOp.styleWrite r c] else []) ++
          (if cell.borderStyles.isSome then [HostOp.borderWrite r c] else []) ++
          (if truthyS cell.note then [HostOp.noteWrite r c] else []))
      let cOps := if copyToRange.isSome then [HostOp.copyWrite] else []
      let rOps := (if rw.isSome then [HostOp.resizeOp] else []) ++
        (if rh.isSome then [HostOp.resizeOp] else [])
      .ok ([HostOp.valuesBatch] ++ fOps ++ sOps ++ cOps ++ rOps)

/-- The find-next loop of the Excel `searchData` (part_002:242-286) over
the host search cursor.  `occ` is the cyclic sequence of match addresses
the host's `findOrNullObject` cursor yields (modelled from the spec's
§4.4 description of the circular find-next API; the host itself is not
repository code).  The loop tracks visited addresses, breaks when the
page bound `offset + maxResults` is reached, collects a match only once
`matches.length >= offset` already holds, and breaks when the cursor
returns to the first address. -/
def excelSearchLoop (occ : List String) (offset maxResults : Nat) :
    Nat → Nat → List String → List String → List String
  | 0, _, _, acc => acc
  | fuel + 1, k, visited, acc =>
      match occ.get? (k % occ.length) with
      | none => acc
      | some a =>
          if visited.contains a then acc
          else if acc.length ≥ offset + maxResults then acc
          else
            let newAcc := if acc.length ≥ offset then acc ++ [a] else acc
            match occ.get? ((k + 1) % occ.length) with
            | none => newAcc
            | some nxt =>
                if occ.head? = some nxt then newAcc
                else excelSearchLoop occ offset maxResults fuel (k + 1) (a :: visited) newAcc

/-- Excel `searchData` result assembly (part_002:287-301): the returned
page is `matches.slice(0, maxResults)`, `totalFound` is
`matches.length + offset`, and `hasMore` is `matches.length >
maxResults`. -/
structure ExcelSearchResult where
  matchList : List String
  totalFound : Nat
  returned : Nat
  hasMore : Bool
  nextOffset : Option Nat
deriving DecidableEq, Repr

/-- Excel adapter `searchData` over one sheet whose cyclic find-next
cursor yields the match addresses `occ` in document order. -/
def excelSearchData (occ : List String) (offset maxResults : Nat) : ExcelSearchResult :=
  let ms := if occ.isEmpty then [] else
    excelSearchLoop occ offset maxResults (occ.length + 1) 0 [] []
  let page := ms.take maxResults
  let hasMore := decide (ms.length > maxResults)
  { matchList := page, totalFound := ms.length + offset, returned := page.length,
    hasMore := hasMore,
    nextOffset := if hasMore then some (offset + maxResults) else none }

/-! ## Google adapter (part_009) -/

/-- Host cell style state the Google adapter reads and writes, with the
host's default constants (white background, black font, weight/slant
normal, size 10, Arial, general alignment, General number format). -/
structure GoogleCellStyle where
  background : String := "#ffffff"
  fontColor : String := "#000000"
  fontWeight : String := "normal"
  fontStyle : String := "normal"
  fontSize : Nat := 10
  fontFamily : String := "Arial"
  hAlign : String := "general"
  numberFormat : String := "General"
deriving DecidableEq, Repr

/-- Google worksheet state: zero-based grids behind
`getValues`/`getFormulas`/`getNotes` (`""` = absent) and per-cell style
state. -/
structure GoogleSheet where
  values : Nat → Nat → String
  formulas : Nat → Nat → String
  notes : Nat → Nat → String
  styleAt : Nat → Nat → GoogleCellStyle

/-- The style branch of the Google `setCellRange` per-cell loop
(part_009:410-447).  `setFontLine` has no read-side counterpart (the
read loop never fetches font lines), so line state is not modelled. -/
def applyGoogleStyles (cs : StyleSet) (g : GoogleCellStyle) : GoogleCellStyle :=
  let g1 := if truthyS cs.fontColor then { g with fontColor := cs.fontColor.getD "" } else g
  let g2 := if truthyN cs.fontSize then { g1 with fontSize := cs.fontSize.getD 0 } else g1
  let g3 := if truthyS cs.fontFamily then { g2 with fontFamily := cs.fontFamily.getD "" } else g2
  let g4 :=
    if cs.fontWeight = some "bold" then { g3 with fontWeight := "bold" }
    else if cs.fontWeight = some "normal" then { g3 with fontWeight := "normal" }
    else g3
  let g5 :=
    if cs.fontStyle = some "italic" then { g4 with fontStyle := "italic" }
    else if cs.fontStyle = some "normal" then { g4 with fontStyle := "normal" }
    else g4
  let g6 := if truthyS cs.backgroundColor then { g5 with background := cs.backgroundColor.getD "" } else g5
  let g7 :=
    match cs.horizontalAlignment with
    | some al => if al.isEmpty then g6 else { g6 with hAlign := al }
    | none => g6
  match cs.numberFormat with
  | some fmt => if fmt.isEmpty then g7 else { g7 with numberFormat := fmt }
  | none => g7

/-- The style-diff loop body of the Google `getCellRanges`
(part_009:128-177): every attribute equal to the host default constants
is suppressed. -/
def googleStyleDiff (g : GoogleCellStyle) : StyleDiff :=
  let d0 : StyleDiff := {}
  let d1 := if !g.background.isEmpty && g.background ≠ "#ffffff" then
      { d0 with fgColor := some g.background } else d0
  let d2 := if !g.fontColor.isEmpty && g.fontColor ≠ "#000000" then
      { d1 with color := some g.fontColor } else d1
  let d3 := if g.fontWeight = "bold" then { d2 with b := some true } else d2
  let d4 := if g.fontStyle = "italic" then { d3 with i := some true } else d3
  let d5 := if g.fontSize ≠ 0 && g.fontSize ≠ 10 then { d4 with sz := some g.fontSize } else d4
  let d6 := if !g.fontFamily.isEmpty && g.fontFamily ≠ "Arial" then
      { d5 with family := some g.fontFamily } else d5
  let d7 := if !g.hAlign.isEmpty && g.hAlign ≠ "general" then
      { d6 with alignment := some g.hAlign } else d6
  if !g.numberFormat.isEmpty && g.numberFormat ≠ "General" && g.numberFormat ≠ "@" then
    { d7 with numFmt := some g.numberFormat } else d7

/-- One row of the Google read loop (part_009:93-116): like the Excel
loop but with note handling; the inner column loop has no limit check. -/
def googleReadRow (g : GoogleSheet) (sr sc cc row : Nat) (acc : ReadAcc) : ReadAcc :=
  (List.range cc).foldl (fun a col =>
    let value := g.values (sr + row) (sc + col)
    let formula := g.formulas (sr + row) (sc + col)
    let note := g.notes (sr + row) (sc + col)
    if value.isEmpty && formula.isEmpty then a
    else
      let addr := a1Addr (sc + col) (sr + row)
      let entry :=
        if !formula.isEmpty && "=".data.isPrefixOf formula.data then
          if !note.isEmpty then CellOut.withNote (some value) (some formula) note
          else CellOut.withFormula (some value) formula
        else if !note.isEmpty then CellOut.withNote (some value) none note
        else CellOut.plain value
      { a with cells := a.cells ++ [(addr, entry)], count := a.count + 1 }) acc

/-- The row loop of one Google range (part_009:76-92): truncation at a
row boundary records the row-sliced remainder and the not-yet-visited
ranges exactly as in the Excel adapter. -/
def googleReadRows (g : GoogleSheet) (sr sc rc cc limit : Nat) (rest : List String) :
    List Nat → ReadAcc → ReadAcc
  | [], acc => acc
  | row :: more, acc =>
      if acc.count ≥ limit then
        let slice := columnToLetter sc ++ toString (sr + row + 1) ++ ":" ++
          columnToLetter (sc + cc - 1) ++ toString (sr + rc)
        { acc with hasMore := true, nextRanges := acc.nextRanges ++ [slice] ++ rest }
      else
        googleReadRows g sr sc rc cc limit rest more (googleReadRow g sr sc cc row acc)

/-- The style loop of one Google range (part_009:119-180): runs over the
whole range after the (possibly truncated) cell loop, appending each
nonempty diff. -/
def googleReadStyles (g : GoogleSheet) (sr sc rc cc : Nat) (acc : ReadAcc) : ReadAcc :=
  ((List.range rc).flatMap (fun row => (List.range cc).map (fun col => (row, col)))).foldl
    (fun a rc2 =>
      let (row, col) := rc2
      let d := googleStyleDiff (g.styleAt (sr + row) (sc + col))
      if d = {} then a else { a with styles := a.styles ++ [(a1Addr (sc + col) (sr + row), d)] })
    acc

/-- The range loop of the Google `getCellRanges` (part_009:57-183). -/
def googleReadRanges (g : GoogleSheet) (includeStyles : Bool) (limit : Nat) :
    List String → ReadAcc → Option ReadAcc
  | [], acc => some acc
  | rStr :: rest, acc =>
      if acc.count ≥ limit then
        some { acc with hasMore := true, nextRanges := acc.nextRanges ++ (rStr :: rest) }
      else
        match hostResolveRange rStr with
        | none => none
        | some (sr, sc, rc, cc) =>
            let acc1 := googleReadRows g sr sc rc cc limit rest (List.range rc) acc
            let acc2 :=
              if includeStyles && rc ≠ 0 && cc ≠ 0 then googleReadStyles g sr sc rc cc acc1
              else acc1
            googleReadRanges g includeStyles limit rest acc2

/-- Google adapter `getCellRanges` (part_009:33-200). -/
def googleGetCellRanges (g : GoogleSheet) (ranges : List String)
    (includeStyles : Bool) (cellLimit : Nat) : Option ReadResult :=
  match googleReadRanges g includeStyles cellLimit ranges {} with
  | none => none
  | some acc =>
      some
        { cells := acc.cells,
          styles := if includeStyles && !acc.styles.isEmpty then some acc.styles else none,
          hasMore := acc.hasMore,
          nextRanges :=
            if acc.hasMore && !acc.nextRanges.isEmpty then some acc.nextRanges else none }

/-- Host-call trace of the Google `setCellRange` (part_009:322-610): the
same validation and phase order as the Excel adapter (one batched
`setValues`, the formula loop, the per-cell style/border/note loop, the
optional `copyTo`, then the per-column and per-row resize loops). -/
def googleSetCellRangeTrace (cells : List (List CellInput)) (copyToRange : Option String)
    (rw rh : Option Resize) (rowCount colCount : Nat) : Except String (List HostOp) :=
  match validateCellsDims cells rowCount colCount with
  | some m => .error m
  | none =>
      let fOps := (cellsIndexed cells).filterMap (fun rcc =>
        if truthyS rcc.2.2.formula then some (HostOp.formulaWrite rcc.1 rcc.2.1) else none)
      let sOps := (cellsIndexed cells).flatMap (fun rcc =>
        let (r, c, cell) := rcc
        (if cell.cellStyles.isSome then [HostOp.styleWrite r c] else []) ++
          (if cell.borderStyles.isSome then [HostOp.borderWrite r c] else []) ++
          (if truthyS cell.note then [HostOp.noteWrite r c] else []))
      let cOps := if copyToRange.isSome then [HostOp.copyWrite] else []
      let rOps := (if rw.isSome then (List.range colCount).map (fun _ => HostOp.resizeOp) else []) ++
        (if rh.isSome then (List.range rowCount).map (fun _ => HostOp.resizeOp) else [])
      .ok ([HostOp.valuesBatch] ++ fOps ++ sOps ++ cOps ++ rOps)

/-- Accumulator of the Google search loop: total match count (including
skipped ones), the collected page, and the one-past-the-page sentinel. -/
structure GAcc where
  matchCount : Nat
  found : List SearchMatch
  foundMore : Bool
deriving Repr

/-- The cell scan of the Google `searchData` (part_009:250-305):
collects a match once `matchCount` has passed `offset` and the page is
not full; a match arriving on a full page sets `foundMore`; the loop
stops as soon as the page is full and `foundMore` is known. -/
def googleSearchLoop (inp : SearchInput) (startRow startCol : Nat) :
    List (Nat × Nat × String) → GAcc → GAcc
  | [], st => st
  | (r, c, v) :: rest, st =>
      let isM := matchesTerm inp.matchCase inp.matchEntireCell inp.searchTerm v
      let hit : SearchMatch :=
        ⟨columnToLetter (startCol + c - 1) ++ toString (startRow + r),
          startRow + r, startCol + c⟩
      let st' :=
        if isM then
          if st.matchCount ≥ inp.offset && st.found.length < inp.maxResults then
            { st with matchCount := st.matchCount + 1, found := st.found ++ [hit] }
          else if st.found.length ≥ inp.maxResults then
            { st with matchCount := st.matchCount + 1, foundMore := true }
          else { st with matchCount := st.matchCount + 1 }
        else st
      if st'.found.length ≥ inp.maxResults && st'.foundMore then st'
      else googleSearchLoop inp startRow startCol rest st'

/-- Google adapter `searchData` over one sheet (part_009:215-320):
`values` is the searched range's value grid (`String(cellValue ?? "")`
applied), `startRow`/`startCol` its one-based origin. -/
def googleSearchData (inp : SearchInput) (values : List (List String))
    (startRow startCol : Nat) : SearchResult :=
  let cellsList := values.enum.flatMap (fun rr =>
    rr.2.enum.map (fun cc => (rr.1, cc.1, cc.2)))
  let st := googleSearchLoop inp startRow startCol cellsList ⟨0, [], false⟩
  { matchList := st.found, totalFound := st.matchCount, returned := st.found.length,
    offset := inp.offset, hasMore := st.foundMore,
    nextOffset := if st.foundMore then some (inp.offset + st.found.length) else none }

/-! ## Whole-range host copy primitive (Excel `copyFrom`, Google
`copyTo`) -/

/-- Modelled from the spec: the whole-range native copy primitive
(`destRange.copyFrom(targetRange, all)` in the Excel host,
`targetRange.copyTo(destRange)` in the Google host; §4.4
copy-with-pattern-expansion).  The primitive lives in the hosts, not in
this repository; the model fills the destination by repeating
`source[r % srcRows, c % srcCols]` and translating relative formula
references by the per-cell delta. -/
def hostCopyExpand (srcR srcC srcRows srcCols dstR dstC dstRows dstCols : Nat)
    (vals fmls : Nat → Nat → String) : (Nat → Nat → String) × (Nat → Nat → String) :=
  let inDst : Nat → Nat → Bool := fun r c =>
    dstR ≤ r && r < dstR + dstRows && dstC ≤ c && c < dstC + dstCols
  let srcOf : Nat → Nat → Nat × Nat := fun r c =>
    (srcR + (r - dstR) % srcRows, srcC + (c - dstC) % srcCols)
  (fun r c =>
    if inDst r c then vals (srcOf r c).1 (srcOf r c).2 else vals r c,
   fun r c =>
    if inDst r c then
      let (sr, sc) := srcOf r c
      let f := fmls sr sc
      if "=".data.isPrefixOf f.data then
        translateFormula ((r : Int) - sr) ((c : Int) - sc) f
      else f
    else fmls r c)

/-- The `copyToRange` step of the Excel `setCellRange`
(part_002:512-517): one whole-range `copyFrom` host call. -/
def excelCopyFrom (s : ExcelSheet) (srcR srcC srcRows srcCols dstR dstC dstRows dstCols : Nat) :
    ExcelSheet :=
  let (v, f) := hostCopyExpand srcR srcC srcRows srcCols dstR dstC dstRows dstCols
    s.values s.formulas
  { s with values := v, formulas := f }

/-! ## Concrete scenarios used by the claims -/

/-- A host that never throws. -/
def hostNoFailure : Nat → Nat → Bool := fun _ _ => false

/-- A value-only cell input. -/
def vCell (s : String) : CellInput := { value := some s }

/-- A 3-rows-by-2-columns `cells` array (§8 dimension-validation
scenario against the 2x3 range `A1:C2`). -/
def cells3x2 : List (List CellInput) :=
  [[vCell "a", vCell "b"], [vCell "c", vCell "d"], [vCell "e", vCell "f"]]

/-- Excel sheet with every cell populated with value `"v"` (the host's
`formulas` grid echoes the literal value for non-formula cells). -/
def fullValuesExcelSheet : ExcelSheet :=
  { values := fun _ _ => "v", formulas := fun _ _ => "v", fmt := fun _ _ => {} }

/-- Web sheet with every cell populated with value `"v"`. -/
def fullValuesWebSheet : WebSheet :=
  { emptyWebSheet with val := fun _ _ => some "v", used := some (0, 0, 10, 1) }

/-- Google sheet with every cell populated with value `"v"`. -/
def fullValuesGoogleSheet : GoogleSheet :=
  { values := fun _ _ => "v", formulas := fun _ _ => "", notes := fun _ _ => "",
    styleAt := fun _ _ => {} }

/-- The five cells a `cellLimit = 5` read of `A1:A10` returns. -/
def fiveReadCells : List (String × CellOut) :=
  [("A1", CellOut.plain "v"), ("A2", CellOut.plain "v"), ("A3", CellOut.plain "v"),
    ("A4", CellOut.plain "v"), ("A5", CellOut.plain "v")]

/-- C3 counterexample: the claim fails on the web adapter — `setCellRange`
with range `A1:C2` (2x3) and the 3x2 `cells` array does not fail at all:
it succeeds and writes the third row (row index 2, outside the range);
and the Excel/Google validation rejects this input with the row-count
message, which is not the claimed error naming row 0's expected column
count of 3. -/
theorem c3_dimension_validation_counterexample :
    (webSetCellRange hostNoFailure { range := "A1:C2", cells := cells3x2 }
      emptyWebSheet).result.isOk = true ∧
    (webSetCellRange hostNoFailure { range := "A1:C2", cells := cells3x2 }
      emptyWebSheet).sheet.val 2 0 = some "e" ∧
    validateCellsDims cells3x2 2 3 = some (rowCountMsg 3 2) ∧
    rowCountMsg 3 2 ≠ colCountMsg 0 2 3 := by
  decide

/-- C3 amended: in the Excel and Google adapters, `setCellRange`
validates dimensions before any host write: an outer-length mismatch
fails with the error naming actual-vs-expected row counts (so the 3x2
array against `A1:C2` fails with the row-count message, not a row-0
column message), and with matching outer length the first inner row of
differing length fails naming that row and the expected-vs-actual column
counts; validation passes exactly when the array is `rowCount x
colCount`.  The web adapter performs no dimension validation and writes
every supplied cell anchored at the range start. -/
theorem c3_dimension_validation_amended :
    (∀ (cells : List (List CellInput)) (rc cc : Nat), cells.length ≠ rc →
      validateCellsDims cells rc cc = some (rowCountMsg cells.length rc)) ∧
    (∀ (cells : List (List CellInput)) (rc cc : Nat),
      validateCellsDims cells rc cc = none ↔
        cells.length = rc ∧ ∀ row ∈ cells, row.length = cc) ∧
    (∀ (cells : List (List CellInput)) (copy : Option String) (rw rh : Option Resize)
      (rc cc : Nat) (m : String), validateCellsDims cells rc cc = some m →
        excelSetCellRangeTrace cells copy rw rh rc cc = .error m ∧
        googleSetCellRangeTrace cells copy rw rh rc cc = .error m) ∧
    validateCellsDims [[vCell "a", vCell "b"], [vCell "c", vCell "d"]] 2 3 =
      some (colCountMsg 0 2 3) ∧
    (webSetCellRange hostNoFailure { range := "A1:C2", cells := cells3x2 }
      emptyWebSheet).sheet.val 2 1 = some "f" := by
  refine ⟨?_, ?_, ?_, by decide, by decide⟩
  · intro cells rc cc h
    simp [validateCellsDims, h]
  · intro cells rc cc
    unfold validateCellsDims
    split
    · rename_i h
      simp only [reduceCtorEq, false_iff, not_and]
      intro hl
      exact absurd hl h
    · rename_i h
      rw [not_not] at h
      simp only [h, true_and]
      rw [List.findSome?_eq_none_iff]
      constructor
      · intro hall row hrow
        obtain ⟨i, hi, rfl⟩ := List.getElem_of_mem hrow
        have := hall (i, cells[i]) (by
          rw [List.mem_enum_iff_getElem?]
          simp [List.getElem?_eq_getElem hi])
        by_contra hne
        simp [hne] at this
      · intro hall x hx
        rw [List.mem_enum_iff_getElem?] at hx
        have hmem : x.2 ∈ cells := by
          have := List.getElem?_mem hx
          exact this
        have := hall x.2 hmem
        simp [this]
  · intro cells copy rw rh rc cc m h
    constructor
    · simp [excelSetCellRangeTrace, h]
    · simp [googleSetCellRangeTrace, h]

/-- C3 witness: the amended validation facts applied at concrete
inputs. -/
theorem c3_dimension_validation_witness :
    validateCellsDims [[], []] 3 9 = some (rowCountMsg 2 3) ∧
    excelSetCellRangeTrace [[], []] none none none 3 9 = .error (rowCountMsg 2 3) ∧
    (validateCellsDims [[vCell "a"]] 1 1 = none ↔
      ([[vCell "a"]] : List (List CellInput)).length = 1 ∧
      ∀ row ∈ ([[vCell "a"]] : List (List CellInput)), row.length = 1) :=
  ⟨c3_dimension_validation_amended.1 [[], []] 3 9 (by decide),
   (c3_dimension_validation_amended.2.2.1 [[], []] none none none 3 9 _
     (c3_dimension_validation_amended.1 [[], []] 3 9 (by decide))).1,
   c3_dimension_validation_amended.2.1 [[vCell "a"]] 1 1⟩

/-- C4 counterexample: in the web adapter, reading a fully-populated
10-row single-column range with `cellLimit = 5` returns 5 cells and
`hasMore = true` but **no** `nextRanges` at all — the remaining 5 rows
are dropped instead of being returned row-sliced. -/
theorem c4_pagination_counterexample :
    (webGetCellRanges fullValuesWebSheet ["A1:A10"] true 5).cells = fiveReadCells ∧
    (webGetCellRanges fullValuesWebSheet ["A1:A10"] true 5).hasMore = true ∧
    (webGetCellRanges fullValuesWebSheet ["A1:A10"] true 5).nextRanges = none := by
  decide

/-- C4 amended: the Excel and Google adapters realise the claimed
pagination on the concrete scenario — 5 cells, `hasMore`, and
`nextRanges = ["A6:A10"]` covering exactly the remaining 5 rows; the web
adapter returns the same 5 cells and `hasMore` but omits the remaining
rows from `nextRanges`.  (When a row-truncated range is followed by
further ranges, the Excel/Google loop appends those trailing ranges to
`nextRanges` twice, so a follow-up call would read them twice.) -/
theorem c4_pagination_amended :
    excelGetCellRanges fullValuesExcelSheet ["A1:A10"] 5 =
      some { cells := fiveReadCells, styles := none, hasMore := true,
             nextRanges := some ["A6:A10"] } ∧
    googleGetCellRanges fullValuesGoogleSheet ["A1:A10"] true 5 =
      some { cells := fiveReadCells, styles := none, hasMore := true,
             nextRanges := some ["A6:A10"] } ∧
    excelGetCellRanges fullValuesExcelSheet ["A1:A10", "B1:B5"] 5 =
      some { cells := fiveReadCells, styles := none, hasMore := true,
             nextRanges := some ["A6:A10", "B1:B5", "B1:B5"] } ∧
    (webGetCellRanges fullValuesWebSheet ["A1:A10"] true 5).cells = fiveReadCells ∧
    (webGetCellRanges fullValuesWebSheet ["A1:A10"] true 5).nextRanges = none := by
  decide

/-- Search input for the §8 pagination scenario: term `"x"`, whole-cell
match, page size 3. -/
def searchX (o : Nat) : SearchInput :=
  { searchTerm := "x", matchEntireCell := true, maxResults := 3, offset := o }

/-- One row of seven matching cells (Google `getValues` grid). -/
def searchRow7 : List (List String) := [["x", "x", "x", "x", "x", "x", "x"]]

/-- The cyclic find-next address sequence of the same seven matches
(Excel host cursor). -/
def occ7 : List String := ["A1", "B1", "C1", "D1", "E1", "F1", "G1"]

/-- Web sheet whose used range holds the same seven matching cells. -/
def webSheet7Matches : WebSheet :=
  { emptyWebSheet with
    val := fun r c => if r = 0 && c < 7 then some "x" else none,
    used := some (0, 0, 1, 7) }

/-- C5 counterexample: the claim fails on the web adapter — `searchData`
ignores `offset` entirely, so the calls at offsets 0 and 3 return the
same (non-disjoint) first page, and `hasMore` is `false` on a non-final
page (7 matches exist, only 3 returned). -/
theorem c5_search_pagination_counterexample :
    webSearchData (searchX 3) webSheet7Matches = webSearchData (searchX 0) webSheet7Matches ∧
    (webSearchData (searchX 0) webSheet7Matches).matchList.length = 3 ∧
    (webSearchData (searchX 0) webSheet7Matches).hasMore = false ∧
    (webSearchData { searchX 0 with maxResults := 10 } webSheet7Matches).matchList.length = 7 := by
  decide

/-- C5 amended: only the Google adapter implements the claimed
pagination: over 7 matching cells with `maxResults = 3`, offsets 0, 3, 6
return the disjoint contiguous pages 1-3, 4-6 and 7 in document order
with `hasMore` true, true, false.  The Excel adapter's offset guard
compares the collected page length against the offset, so any call with
`offset > 0` returns no matches, and its `hasMore` is false even when
more matches exist.  The web adapter ignores `offset` (every call
returns the first page) and always reports `hasMore = false`. -/
theorem c5_search_pagination_amended :
    googleSearchData (searchX 0) searchRow7 1 1 =
      { matchList := [⟨"A1", 1, 1⟩, ⟨"B1", 1, 2⟩, ⟨"C1", 1, 3⟩], totalFound := 4,
        returned := 3, offset := 0, hasMore := true, nextOffset := some 3 } ∧
    googleSearchData (searchX 3) searchRow7 1 1 =
      { matchList := [⟨"D1", 1, 4⟩, ⟨"E1", 1, 5⟩, ⟨"F1", 1, 6⟩], totalFound := 7,
        returned := 3, offset := 3, hasMore := true, nextOffset := some 6 } ∧
    googleSearchData (searchX 6) searchRow7 1 1 =
      { matchList := [⟨"G1", 1, 7⟩], totalFound := 7,
        returned := 1, offset := 6, hasMore := false, nextOffset := none } ∧
    excelSearchData occ7 0 3 =
      { matchList := ["A1", "B1", "C1"], totalFound := 3, returned := 3,
        hasMore := false, nextOffset := none } ∧
    excelSearchData occ7 3 3 =
      { matchList := [], totalFound := 3, returned := 0,
        hasMore := false, nextOffset := none } ∧
    (∀ o : Nat, webSearchData { searchX 0 with offset := o } webSheet7Matches =
      webSearchData (searchX 0) webSheet7Matches) := by
  refine ⟨by decide, by decide, by decide, by decide, by decide, fun o => rfl⟩

/-! ## Copy scenarios (C6) -/

/-- `setCellRange` writing `=B2` into `A2` and copying it to `A3`. -/
def formulaCopyInput : SetInput :=
  { range := "A2", cells := [[{ formula := some "=B2" }]], copyToRange := some "A3" }

/-- A bold-only style set. -/
def boldOnly : StyleSet := { fontWeight := some "bold" }

/-- `setCellRange` writing a styled 1x2 source and expanding it into the
1x4 destination `A3:D3`. -/
def patternCopyInput : SetInput :=
  { range := "A1:B1",
    cells := [[{ value := some "x", cellStyles := some boldOnly }, { value := some "y" }]],
    copyToRange := some "A3:D3" }

/-- The sheet state after the pattern-expansion call. -/
def patternCopyResult : WebSetResult :=
  webSetCellRange hostNoFailure patternCopyInput emptyWebSheet

/-- Excel sheet holding `=B2` at `A2`. -/
def exSheetWithB2Formula : ExcelSheet :=
  { values := fun _ _ => "",
    formulas := fun r c => if r = 1 && c = 0 then "=B2" else "",
    fmt := fun _ _ => {} }

/-- Google sheet holding `=B2` at `A2`. -/
def gSheetWithB2Formula : GoogleSheet :=
  { values := fun _ _ => "", formulas := fun r c => if r = 1 && c = 0 then "=B2" else "",
    notes := fun _ _ => "", styleAt := fun _ _ => {} }

/-- The `copyTo` step of the Google `setCellRange` (part_009:528-532):
one whole-range `copyTo` host call. -/
def googleCopyTo (g : GoogleSheet) (srcR srcC srcRows srcCols dstR dstC dstRows dstCols : Nat) :
    GoogleSheet :=
  let (v, f) := hostCopyExpand srcR srcC srcRows srcCols dstR dstC dstRows dstCols
    g.values g.formulas
  { g with values := v, formulas := f }

/-- C6: the copy paths perform pattern expansion with reference
translation.  The host translation primitive (modelled from the spec)
turns `=B2` copied from `A2` to `A3` into `=B3`; the web adapter's
cell-by-cell `copyToRange` expansion produces exactly that, and the
whole-range native primitives of the Excel (`copyFrom`) and Google
(`copyTo`) adapters do the same; a 1x2 value source expanded into a 1x4
destination repeats `source[r % srcRows, c % srcCols]` (values `x y x y`)
and copies values and styles directly, translating only formula cells
through the single-cell copy primitive. -/
theorem c6_copy_pattern_and_translation :
    translateFormula 1 0 "=B2" = "=B3" ∧
    (webSetCellRange hostNoFailure formulaCopyInput emptyWebSheet).sheet.formula 2 0 =
      some "=B3" ∧
    (excelCopyFrom exSheetWithB2Formula 1 0 1 1 2 0 1 1).formulas 2 0 = "=B3" ∧
    (googleCopyTo gSheetWithB2Formula 1 0 1 1 2 0 1 1).formulas 2 0 = "=B3" ∧
    patternCopyResult.sheet.val 2 0 = some "x" ∧
    patternCopyResult.sheet.val 2 1 = some "y" ∧
    patternCopyResult.sheet.val 2 2 = some "x" ∧
    patternCopyResult.sheet.val 2 3 = some "y" ∧
    patternCopyResult.sheet.style 2 0 = patternCopyResult.sheet.style 0 0 ∧
    patternCopyResult.sheet.style 2 2 = patternCopyResult.sheet.style 0 0 ∧
    (patternCopyResult.sheet.style 0 0).isSome = true ∧
    patternCopyResult.sheet.style 2 1 = none ∧
    patternCopyResult.sheet.formula 2 0 = none := by
  decide

/-! ## Style round-trip scenarios (C7) -/

/-- Excel sheet with a single value at `A1`. -/
def oneCellExcelSheet : ExcelSheet :=
  { values := fun r c => if r = 0 && c = 0 then "x" else "",
    formulas := fun _ _ => "", fmt := fun _ _ => {} }

/-- The Excel sheet after `setCellRange` writes `{fontWeight: bold}` to
`A1`. -/
def excelBoldWritten : ExcelSheet :=
  excelWriteStyles 0 0 [[{ cellStyles := some boldOnly }]] oneCellExcelSheet

/-- Google sheet after a bold write at `A1`. -/
def googleBoldSheet : GoogleSheet :=
  { values := fun r c => if r = 0 && c = 0 then "x" else "",
    formulas := fun _ _ => "", notes := fun _ _ => "",
    styleAt := fun r c => if r = 0 && c = 0 then applyGoogleStyles boldOnly {} else {} }

/-- Web sheet after `setCellRange` writes a bold cell at `A1`. -/
def webBoldSheet : WebSheet :=
  (webSetCellRange hostNoFailure
    { range := "A1", cells := [[{ value := some "x", cellStyles := some boldOnly }]] }
    emptyWebSheet).sheet

/-- C7 counterexample: the claim fails on the Excel adapter — the bold
write reaches the host format state, but `getCellRanges` returns no
style map at all (the source never populates its `styles` record); it
also fails on the web adapter, whose read-back of a bold cell is not
exactly `{b: true}` (a spurious `family` attribute is included). -/
theorem c7_style_roundtrip_counterexample :
    (excelBoldWritten.fmt 0 0).bold = true ∧
    (excelGetCellRanges excelBoldWritten ["A1"] 10).map ReadResult.styles = some none ∧
    webStyleDiff (applyWebStyles boldOnly none) ≠ { b := some true } := by
  decide

/-- C7 amended: only the Google adapter satisfies the claim — writing
`{fontWeight: bold}` and reading back through `getCellRanges` with
`includeStyles` yields exactly `{b: true}`.  The web adapter yields
`{b: true, family: "bold 11pt Calibri"}`: `parseFontString`'s family
regex captures the whole font string, which then differs from the
default family `Calibri` and escapes suppression.  The Excel adapter
returns no style map for any sheet and any ranges — its read path never
fills the styles record. -/
theorem c7_style_roundtrip_amended :
    (googleGetCellRanges googleBoldSheet ["A1"] true 10).map ReadResult.styles =
      some (some [("A1", { b := some true })]) ∧
    (webGetCellRanges webBoldSheet ["A1"] true 10).styles =
      some [("A1", { b := some true, family := some "bold 11pt Calibri" })] ∧
    (∀ (s : ExcelSheet) (ranges : List String) (limit : Nat) (r : ReadResult),
      excelGetCellRanges s ranges limit = some r → r.styles = none) := by
  refine ⟨by decide, by decide, ?_⟩
  intro s ranges limit r h
  unfold excelGetCellRanges at h
  cases hx : excelReadRanges s limit ranges {} with
  | none => rw [hx] at h; exact absurd h (by simp)
  | some acc =>
      rw [hx] at h
      have := Option.some.inj h
      rw [← this]

/-- C7 witness: the Excel no-styles fact applied at a concrete sheet and
range. -/
theorem c7_style_roundtrip_witness :
    ReadResult.styles
      { cells := [("A1", CellOut.plain "x")], styles := none,
        hasMore := false, nextRanges := none } = none :=
  c7_style_roundtrip_amended.2.2 oneCellExcelSheet ["A1"] 10 _ (by decide)

/-! ## Suspension scenario (C9) -/

instance {e a : Type} [DecidableEq e] [DecidableEq a] : DecidableEq (Except e a)
  | .error x, .error y =>
      if h : x = y then .isTrue (h ▸ rfl) else .isFalse (fun hh => h (Except.error.inj hh))
  | .error _, .ok _ => .isFalse (fun hh => Except.noConfusion hh)
  | .ok _, .error _ => .isFalse (fun hh => Except.noConfusion hh)
  | .ok x, .ok y =>
      if h : x = y then .isTrue (h ▸ rfl) else .isFalse (fun hh => h (Except.ok.inj hh))

/-- A host whose write primitive throws at cell `(0, 1)` — the second
cell of the batch. -/
def failingHost : Nat → Nat → Bool := fun r c => r = 0 && c = 1

/-- The two-value write whose second host call throws. -/
def c9Input : SetInput := { range := "A1:B1", cells := [[vCell "1", vCell "2"]] }

/-- C9 (code bug): when a host call throws mid-batch in the web
`setCellRange`, the `finally` block resumes paint, but
`resumeCalcService(true)` — placed inside the `try` body, after the
write loop — never runs: the calc service stays suspended on the error
path while the partial write (the first cell) is retained. -/
theorem c9_calc_resume_skipped_on_error :
    (webSetCellRange failingHost c9Input emptyWebSheet).result =
      .error "host write failed" ∧
    (webSetCellRange failingHost c9Input emptyWebSheet).rtrace =
      [.suspendPaint, .suspendCalc, .resumePaint] ∧
    (webSetCellRange failingHost c9Input emptyWebSheet).rtrace.count ResEvent.resumePaint =
      (webSetCellRange failingHost c9Input emptyWebSheet).rtrace.count ResEvent.suspendPaint ∧
    (webSetCellRange failingHost c9Input emptyWebSheet).rtrace.count ResEvent.suspendCalc = 1 ∧
    (webSetCellRange failingHost c9Input emptyWebSheet).rtrace.count ResEvent.resumeCalc = 0 ∧
    (webSetCellRange failingHost c9Input emptyWebSheet).sheet.val 0 0 = some "1" := by
  decide

/-! ## Write-phase ordering (C8) -/

theorem pairwise_rank_const {l : List HostOp} {k : Nat}
    (h : ∀ x ∈ l, phaseRank x = k) :
    l.Pairwise (fun a b => phaseRank a ≤ phaseRank b) := by
  induction l with
  | nil => exact List.Pairwise.nil
  | cons a t ih =>
      constructor
      · intro b hb
        rw [h a (by simp), h b (by simp [hb])]
      · exact ih (fun x hx => h x (by simp [hx]))

theorem phase_ordered_concat (l0 l1 l2 l3 l4 : List HostOp)
    (h0 : ∀ x ∈ l0, phaseRank x = 0) (h1 : ∀ x ∈ l1, phaseRank x = 1)
    (h2 : ∀ x ∈ l2, phaseRank x = 2) (h3 : ∀ x ∈ l3, phaseRank x = 3)
    (h4 : ∀ x ∈ l4, phaseRank x = 4) :
    PhaseOrdered (l0 ++ l1 ++ l2 ++ l3 ++ l4) := by
  unfold PhaseOrdered
  have m01 : ∀ x ∈ l0 ++ l1, phaseRank x ≤ 1 := fun x hx => by
    rcases List.mem_append.mp hx with h | h
    · rw [h0 x h]; omega
    · rw [h1 x h]
  have m02 : ∀ x ∈ l0 ++ l1 ++ l2, phaseRank x ≤ 2 := fun x hx => by
    rcases List.mem_append.mp hx with h | h
    · exact le_trans (m01 x h) (by omega)
    · rw [h2 x h]
  have m03 : ∀ x ∈ l0 ++ l1 ++ l2 ++ l3, phaseRank x ≤ 3 := fun x hx => by
    rcases List.mem_append.mp hx with h | h
    · exact le_trans (m02 x h) (by omega)
    · rw [h3 x h]
  have q1 : (l0 ++ l1).Pairwise (fun a b => phaseRank a ≤ phaseRank b) :=
    List.pairwise_append.mpr
      ⟨pairwise_rank_const h0, pairwise_rank_const h1,
        fun a ha b hb => by rw [h0 a ha, h1 b hb]; omega⟩
  have q2 : (l0 ++ l1 ++ l2).Pairwise (fun a b => phaseRank a ≤ phaseRank b) :=
    List.pairwise_append.mpr
      ⟨q1, pairwise_rank_const h2,
        fun a ha b hb => by rw [h2 b hb]; exact le_trans (m01 a ha) (by omega)⟩
  have q3 : (l0 ++ l1 ++ l2 ++ l3).Pairwise (fun a b => phaseRank a ≤ phaseRank b) :=
    List.pairwise_append.mpr
      ⟨q2, pairwise_rank_const h3,
        fun a ha b hb => by rw [h3 b hb]; exact le_trans (m02 a ha) (by omega)⟩
  exact List.pairwise_append.mpr
    ⟨q3, pairwise_rank_const h4,
      fun a ha b hb => by rw [h4 b hb]; exact le_trans (m03 a ha) (by omega)⟩

theorem rank_of_mem_ite_single {x op : HostOp} {P : Prop} [Decidable P]
    (hx : x ∈ (if P then [op] else [])) : x = op := by
  split at hx
  · simpa using hx
  · simp at hx

theorem mem_formula_ops_rank (cells : List (List CellInput)) :
    ∀ x ∈ (cellsIndexed cells).filterMap (fun rcc =>
      if truthyS rcc.2.2.formula then some (HostOp.formulaWrite rcc.1 rcc.2.1) else none),
      phaseRank x = 1 := by
  intro x hx
  rw [List.mem_filterMap] at hx
  obtain ⟨a, -, ha⟩ := hx
  split at ha
  · rw [← Option.some.inj ha]; rfl
  · cases ha

theorem mem_style_ops_rank (cells : List (List CellInput)) :
    ∀ x ∈ (cellsIndexed cells).flatMap (fun rcc =>
      let (r, c, cell) := rcc
      (if cell.cellStyles.isSome then [HostOp.styleWrite r c] else []) ++
        (if cell.borderStyles.isSome then [HostOp.borderWrite r c] else []) ++
        (if truthyS cell.note then [HostOp.noteWrite r c] else [])),
      phaseRank x = 2 := by
  intro x hx
  rw [List.mem_flatMap] at hx
  obtain ⟨⟨r, c, cell⟩, -, hx⟩ := hx
  rcases List.mem_append.mp hx with hx | hx
  · rcases List.mem_append.mp hx with hx | hx
    · rw [rank_of_mem_ite_single hx]; rfl
    · rw [rank_of_mem_ite_single hx]; rfl
  · rw [rank_of_mem_ite_single hx]; rfl

/-- C8 counterexample input: a formula cell followed by a value cell. -/
def c8Input : SetInput :=
  { range := "A1:B1", cells := [[{ formula := some "=C1" }, vCell "2"]] }

/-- C8 counterexample: the claim fails on the web adapter — its
`setCellRange` writes per cell, so the formula of the first cell is
issued to the host before the value of the second cell: the trace is
`[formulaWrite (0,0), valueWrite (0,1)]`, which violates the claimed
values-before-formulas phase order. -/
theorem c8_write_order_counterexample :
    (webSetCellRange hostNoFailure c8Input emptyWebSheet).trace =
      [HostOp.formulaWrite 0 0, HostOp.valueWrite 0 1] ∧
    ¬ PhaseOrdered (webSetCellRange hostNoFailure c8Input emptyWebSheet).trace := by
  decide

/-- C8 amended: the Excel and Google adapters do preserve the claimed
order within one `setCellRange` call — every successful host-call trace
is phase-monotone (all values before any formula, all formulas before
any style/border/note, those before the `copyToRange` step, and copy
before resize), for every input.  The web adapter interleaves phases per
cell. -/
theorem c8_write_order_amended :
    ∀ (cells : List (List CellInput)) (copy : Option String) (rw rh : Option Resize)
      (rc cc : Nat) (tr : List HostOp),
      (excelSetCellRangeTrace cells copy rw rh rc cc = .ok tr → PhaseOrdered tr) ∧
      (googleSetCellRangeTrace cells copy rw rh rc cc = .ok tr → PhaseOrdered tr) := by
  intro cells copy rw rh rc cc tr
  constructor
  · intro h
    unfold excelSetCellRangeTrace at h
    cases hv : validateCellsDims cells rc cc with
    | some m => rw [hv] at h; cases h
    | none =>
        rw [hv] at h
        rw [← Except.ok.inj h]
        apply phase_ordered_concat
        · intro x hx
          rw [List.mem_singleton.mp hx]; rfl
        · exact mem_formula_ops_rank cells
        · exact mem_style_ops_rank cells
        · intro x hx
          rw [rank_of_mem_ite_single hx]; rfl
        · intro x hx
          rcases List.mem_append.mp hx with hx | hx
          · rw [rank_of_mem_ite_single hx]; rfl
          · rw [rank_of_mem_ite_single hx]; rfl
  · intro h
    unfold googleSetCellRangeTrace at h
    cases hv : validateCellsDims cells rc cc with
    | some m => rw [hv] at h; cases h
    | none =>
        rw [hv] at h
        rw [← Except.ok.inj h]
        apply phase_ordered_concat
        · intro x hx
          rw [List.mem_singleton.mp hx]; rfl
        · exact mem_formula_ops_rank cells
        · exact mem_style_ops_rank cells
        · intro x hx
          rw [rank_of_mem_ite_single hx]; rfl
        · intro x hx
          rcases List.mem_append.mp hx with hx | hx
          · split at hx
            · obtain ⟨a, -, hxa⟩ := List.mem_map.mp hx
              rw [← hxa]; rfl
            · simp at hx
          · split at hx
            · obtain ⟨a, -, hxa⟩ := List.mem_map.mp hx
              rw [← hxa]; rfl
            · simp at hx

/-- C8 witness: the amended ordering applied to a concrete successful
trace. -/
theorem c8_write_order_witness : PhaseOrdered [HostOp.valuesBatch] :=
  (c8_write_order_amended [] none none none 0 0 [HostOp.valuesBatch]).1 (by decide)
